import Mathlib

/-!
Verification of the cerebrasAPI repository: a rate-limited dispatch queue
for the Cerebras chat-completion proxy, and the Qwen credential manager
(token pool and OAuth device-code flow).  Definitions are shallow
embeddings of the TypeScript source; times are integer milliseconds.
-/

namespace Cerebras

/-- An upstream HTTP response as observed by the proxy (status and body). -/
structure UpstreamResp where
  status : Nat
  statusText : String
  respBody : String
deriving Repr, DecidableEq

/-- The response delivered to a waiting client. -/
structure ProxyResponse where
  status : Nat
  respBody : String
deriving Repr, DecidableEq

/-- One queued request: the JSON body and an identifier standing for the
pending `resolve` function handed to the HTTP layer. -/
structure QueueItem where
  reqBody : String
  rid : Nat
deriving Repr, DecidableEq

/-- The proxy's mutable globals: `requestQueue`, `apiKeys`, `currentKeyIndex`. -/
structure ProxyState where
  requestQueue : List QueueItem
  apiKeys : List String
  currentKeyIndex : Nat
deriving Repr, DecidableEq

/-- Result of forwarding to the upstream API: the response on transport
success, or the error message on transport failure (the `catch` branch). -/
abbrev FetchFn := String → String → Except String UpstreamResp

/-- The response `processQueue` resolves the caller with: the upstream
response on success, or a 502 `Proxy error` on transport failure. -/
def respOf : Except String UpstreamResp → ProxyResponse
  | .ok r => { status := r.status, respBody := r.respBody }
  | .error e => { status := 502, respBody := "Proxy error: " ++ e }

/-- An observable effect of one ticker firing: the resolver that was called,
the API key attached to the upstream call, and the response delivered. -/
structure TickEvent where
  rid : Nat
  key : String
  resp : ProxyResponse
deriving Repr, DecidableEq

/-- Embedding of `processQueue` (one ticker firing): no-op when the queue or
key pool is empty, else shift the head item, pick `apiKeys[currentKeyIndex]`,
advance the index mod pool size, forward once upstream and resolve.
Returns the new state, the resolution event (if any) and the number of
upstream calls issued. -/
def processQueue (fetch : FetchFn) (s : ProxyState) :
    ProxyState × Option TickEvent × Nat :=
  if s.requestQueue = [] ∨ s.apiKeys = [] then (s, none, 0)
  else
    match s.requestQueue with
    | [] => (s, none, 0)
    | item :: rest =>
      let apiKey := s.apiKeys.getD s.currentKeyIndex ""
      let s1 : ProxyState :=
        { requestQueue := rest, apiKeys := s.apiKeys,
          currentKeyIndex := (s.currentKeyIndex + 1) % s.apiKeys.length }
      (s1, some { rid := item.rid, key := apiKey,
                  resp := respOf (fetch apiKey item.reqBody) }, 1)

/-- `k` consecutive ticker firings, collecting the resolution events. -/
def runTicks (fetch : FetchFn) : Nat → ProxyState → ProxyState × List TickEvent
  | 0, s => (s, [])
  | k + 1, s =>
    let r := processQueue fetch s
    let r2 := runTicks fetch k r.1
    (r2.1, r.2.1.toList ++ r2.2)

/-- Expected event stream per the spec: items are served in FIFO order and
the key attached to the item at position `i` (counting from the start index)
is `apiKeys[i mod poolSize]`, with the upstream-or-502 resolution rule. -/
def roundRobinEvents (fetch : FetchFn) (keys : List String) :
    Nat → List QueueItem → List TickEvent
  | _, [] => []
  | i, item :: rest =>
    let key := keys.getD (i % keys.length) ""
    { rid := item.rid, key := key, resp := respOf (fetch key item.reqBody) }
      :: roundRobinEvents fetch keys (i + 1) rest

/-- Sample transport used by concrete instantiations: a 200 response echoing
the key and body. -/
def sampleFetchOk : FetchFn :=
  fun key reqBody => .ok { status := 200, statusText := "OK", respBody := key ++ reqBody }

/-- Sample failing transport. -/
def sampleFetchDown : FetchFn := fun _ _ => .error "down"

/-- Three sample queued requests. -/
def sampleItems : List QueueItem := [⟨"b0", 0⟩, ⟨"b1", 1⟩, ⟨"b2", 2⟩]

/-- A two-key sample pool. -/
def sampleKeys : List String := ["k0", "k1"]

/-- Default event used with `List.getD`. -/
def dEvent : TickEvent := ⟨99, "", ⟨0, ""⟩⟩

/-- Default queue item used with `List.getD`. -/
def dItem : QueueItem := ⟨"", 99⟩

end Cerebras

namespace Qwen

/-- JS truthiness of an optional number: absent and `0` are falsy. -/
def truthyI : Option Int → Bool
  | none => false
  | some n => n != 0

/-- JS truthiness of an optional string: absent and `""` are falsy. -/
def truthyS : Option String → Bool
  | none => false
  | some s => s != ""

/-- JS `a || d` over an optional number. -/
def jsOrI (a : Option Int) (d : Int) : Int := if truthyI a then a.getD 0 else d

/-- JS `a || d` over an optional string. -/
def jsOrS (a : Option String) (d : String) : String := if truthyS a then a.getD "" else d

/-- JS truthiness of an optional rational (the poll interval). -/
def truthyR : Option Rat → Bool
  | none => false
  | some q => q != 0

/-- JS `a || d` over an optional rational. -/
def jsOrR (a : Option Rat) (d : Rat) : Rat := if truthyR a then a.getD 0 else d

/-- `getTokenId`: `refresh_token.substring(0, 8)`, the first 8 characters. -/
def getTokenId (refresh_token : String) : String :=
  (refresh_token.toList.take 8).asString

/-- The `TokenData` interface; `expires_at` is optional in the source. -/
structure TokenData where
  access_token : String
  refresh_token : String
  expires_at : Option Int
  uploaded_at : Int
deriving Repr, DecidableEq

/-- An `OAuthState` as stored in the session map (fields as used by poll). -/
structure OAuthState where
  deviceCode : String
  codeVerifier : String
  expiresAt : Option Int
  pollInterval : Option Rat
  createdAt : Option Int
  lastUsedAt : Option Int
deriving Repr, DecidableEq

/-- Lookup in a JS `Map` / KV table modelled as an insertion-ordered
association list. -/
def getEntry {α : Type} : List (String × α) → String → Option α
  | [], _ => none
  | (k, v) :: rest, key => if k = key then some v else getEntry rest key

/-- `Map.set`: replaces an existing key in place, else appends. -/
def setEntry {α : Type} : List (String × α) → String → α → List (String × α)
  | [], key, v => [(key, v)]
  | (k, w) :: rest, key, v =>
    if k = key then (key, v) :: rest else (k, w) :: setEntry rest key v

/-- `Map.delete` / `kv.delete`. -/
def delEntry {α : Type} : List (String × α) → String → List (String × α)
  | [], _ => []
  | (k, w) :: rest, key => if k = key then rest else (k, w) :: delEntry rest key

/-- A map has pairwise-distinct keys (always true of a real JS `Map`). -/
def keysNodup {α : Type} (m : List (String × α)) : Prop := (m.map Prod.fst).Nodup

/-- The server's mutable stores: the in-memory session map and token map and
their durable KV mirrors (KV assumed available). -/
structure ServerState where
  oauthStates : List (String × OAuthState)
  kvOauth : List (String × OAuthState)
  tokenStore : List (String × TokenData)
  kvTokens : List (String × TokenData)
deriving Repr, DecidableEq

/-- `loadTokensFromKv`: clear the memory map and reload every record from KV. -/
def loadTokensFromKv (s : ServerState) : ServerState := { s with tokenStore := s.kvTokens }

/-- Core of `handleUploadToken` after field validation: derive the id from
the refresh token, build the record (`expires_at` from the body or a 1-hour
default) and store it in memory and KV. Returns the new state and the id. -/
def handleUploadToken (s : ServerState) (now : Int) (access_token refresh_token : String)
    (body_expires_at body_expiry_date : Option Int) : ServerState × String :=
  let tokenId := getTokenId refresh_token
  let tokenData : TokenData :=
    { access_token := access_token, refresh_token := refresh_token,
      expires_at := some (jsOrI body_expires_at (jsOrI body_expiry_date (now + 60 * 60 * 1000))),
      uploaded_at := now }
  ({ s with tokenStore := setEntry s.tokenStore tokenId tokenData,
            kvTokens := setEntry s.kvTokens tokenId tokenData }, tokenId)

/-- A parsed 2xx body of the upstream refresh-grant endpoint. -/
structure RefreshResponse where
  access_token : String
  refresh_token : Option String
  expires_in : Option Int
deriving Repr, DecidableEq

/-- Outcome of the upstream refresh call as seen by the token code: `none`
models both a non-2xx response and a thrown transport error (the source
returns `null` in both cases). -/
abbrev RefreshFn := String → Option RefreshResponse

/-- The updated record both refresh paths build: response access token,
response refresh token falling back to the stored one, expiry from
`expires_in` or a 1-hour default, `uploaded_at` carried over. -/
def updatedTokenData (now : Int) (token : TokenData) (data : RefreshResponse) : TokenData :=
  { access_token := data.access_token,
    refresh_token := jsOrS data.refresh_token token.refresh_token,
    expires_at := some (if truthyI data.expires_in
      then now + data.expires_in.getD 0 * 1000 else now + 60 * 60 * 1000),
    uploaded_at := token.uploaded_at }

/-- `token.expires_at ? Date.now() > token.expires_at : false`. -/
def isExpiredCheck (now : Int) (token : TokenData) : Bool :=
  if truthyI token.expires_at then decide (now > token.expires_at.getD 0) else false

/-- `validateAndRefreshToken`: an unexpired record is returned unchanged with
no upstream call; otherwise one refresh call is made and on success the
record is replaced in memory and KV under the same `id`. The final
component counts upstream calls. -/
def validateAndRefreshToken (rc : RefreshFn) (now : Int) (s : ServerState)
    (id : String) (token : TokenData) : ServerState × Option TokenData × Nat :=
  if isExpiredCheck now token = false then (s, some token, 0)
  else
    match rc token.refresh_token with
    | none => (s, none, 1)
    | some data =>
      let u := updatedTokenData now token data
      ({ s with tokenStore := setEntry s.tokenStore id u,
                kvTokens := setEntry s.kvTokens id u }, some u, 1)

/-- `forceRefreshToken`: always makes the refresh call, regardless of expiry. -/
def forceRefreshToken (rc : RefreshFn) (now : Int) (s : ServerState)
    (id : String) (token : TokenData) : ServerState × Option TokenData × Nat :=
  match rc token.refresh_token with
  | none => (s, none, 1)
  | some data =>
    let u := updatedTokenData now token data
    ({ s with tokenStore := setEntry s.tokenStore id u,
              kvTokens := setEntry s.kvTokens id u }, some u, 1)

/-- Outcome of the single-token force-refresh endpoint. -/
inductive RefreshSingleResult
  | notFound
  | refreshed
  | deletedAfterFailure
deriving Repr, DecidableEq

/-- Core of `handleRefreshSingleToken`: reload from KV, force-refresh the
record, and on refresh failure delete it from memory and KV. -/
def handleRefreshSingleToken (rc : RefreshFn) (now : Int) (s : ServerState)
    (tokenId : String) : ServerState × RefreshSingleResult :=
  let s0 := loadTokensFromKv s
  match getEntry s0.tokenStore tokenId with
  | none => (s0, .notFound)
  | some token =>
    let r := forceRefreshToken rc now s0 tokenId token
    match r.2.1 with
    | some _ => (r.1, .refreshed)
    | none =>
      ({ r.1 with tokenStore := delEntry r.1.tokenStore tokenId,
                  kvTokens := delEntry r.1.kvTokens tokenId }, .deletedAfterFailure)

/-- The destructuring swap `[a[i], a[j]] = [a[j], a[i]]`. -/
def swapL {α : Type} (l : List α) (i j : Nat) : List α :=
  match l[i]?, l[j]? with
  | some x, some y => (l.set i y).set j x
  | _, _ => l

/-- The Fisher-Yates loop `for (i = n-1; i > 0; i--) swap(i, rand(i+1))`,
with the random draw at loop index `i` modelled as `seed i % (i + 1)`. -/
def fyAux {α : Type} (seed : Nat → Nat) : Nat → List α → List α
  | 0, l => l
  | i + 1, l => fyAux seed i (swapL l (i + 1) (seed (i + 1) % (i + 2)))

/-- The shuffle applied to the candidate entries in `getValidToken`. -/
def fyShuffle {α : Type} (seed : Nat → Nat) (l : List α) : List α :=
  fyAux seed (l.length - 1) l

/-- The validate-and-collect loop of `getValidToken`: validates each
candidate in order, threading the store state, and keeps the valid ones. -/
def collectValid (rc : RefreshFn) (now : Int) :
    ServerState → List (String × TokenData) → ServerState × List (String × TokenData)
  | s, [] => (s, [])
  | s, (id, token) :: rest =>
    let r := validateAndRefreshToken rc now s id token
    let r2 := collectValid rc now r.1 rest
    match r.2.1 with
    | some v => (r2.1, (id, v) :: r2.2)
    | none => (r2.1, r2.2)

/-- Default pair for `List.getD` over candidate entries. -/
def dPair : String × TokenData := ("", ⟨"", "", none, 0⟩)

/-- `getValidToken`: reload the freshest snapshot from KV, shuffle the
entries, validate them in shuffled order, and return the valid entry at a
uniformly drawn index (`pick % length` models `floor(random * length)`). -/
def getValidToken (rc : RefreshFn) (now : Int) (seed : Nat → Nat) (pick : Nat)
    (s : ServerState) : ServerState × Option (String × TokenData) :=
  let s0 := loadTokensFromKv s
  if s0.tokenStore.length = 0 then (s0, none)
  else
    let tokenEntries := fyShuffle seed s0.tokenStore
    let r := collectValid rc now s0 tokenEntries
    if 0 < r.2.length then (r.1, some (r.2.getD (pick % r.2.length) dPair))
    else (r.1, none)

/-- One row of the `handleTokenStatus` listing. -/
structure TokenStatusEntry where
  id : String
  expiresAt : Option Int
  isExpired : Bool
  uploadedAt : Int
  wasRefreshed : Bool
  refreshFailed : Bool
deriving Repr, DecidableEq

/-- The listing loop of `handleTokenStatus`: expired records are refreshed
opportunistically and reported with `wasRefreshed` or `refreshFailed`;
unexpired records are reported as not expired, untouched. -/
def tokenStatusLoop (rc : RefreshFn) (now : Int) :
    ServerState → List (String × TokenData) → ServerState × List TokenStatusEntry
  | s, [] => (s, [])
  | s, (id, token) :: rest =>
    if isExpiredCheck now token then
      let r := validateAndRefreshToken rc now s id token
      match r.2.1 with
      | some u =>
        let r2 := tokenStatusLoop rc now r.1 rest
        (r2.1, ⟨id, u.expires_at, false, u.uploaded_at, true, false⟩ :: r2.2)
      | none =>
        let r2 := tokenStatusLoop rc now r.1 rest
        (r2.1, ⟨id, token.expires_at, true, token.uploaded_at, false, true⟩ :: r2.2)
    else
      let r2 := tokenStatusLoop rc now s rest
      (r2.1, ⟨id, token.expires_at, false, token.uploaded_at, false, false⟩ :: r2.2)

/-- `handleTokenStatus`: reload from KV, then run the listing loop. -/
def handleTokenStatus (rc : RefreshFn) (now : Int) (s : ServerState) :
    ServerState × List TokenStatusEntry :=
  let s0 := loadTokensFromKv s
  tokenStatusLoop rc now s0 s0.tokenStore

/-- What `handleOAuthPoll` observes from `pollDeviceToken`: a parsed JSON
body (possibly the pending marker it returns for `authorization_pending` /
`slow_down`), or a thrown error message. -/
inductive PollReply
  | json (access_token : Option String) (refresh_token : String)
      (expires_in : Option Int) (isPending : Bool) (slowDown : Bool)
  | raise (msg : String)
deriving Repr, DecidableEq

/-- The upstream token poll, keyed by device code and verifier. -/
abbrev PollFn := String → String → PollReply

/-- `startsWithL as bs` : `bs` begins the list `as`. -/
def startsWithL : List Char → List Char → Bool
  | _, [] => true
  | [], _ :: _ => false
  | a :: as, b :: bs => a == b && startsWithL as bs

/-- Substring occurrence, as in JS `String.includes`. -/
def hasSubL (pat : List Char) : List Char → Bool
  | [] => startsWithL [] pat
  | c :: rest => startsWithL (c :: rest) pat || hasSubL pat rest

/-- `hay.includes(pat)`. -/
def includesStr (hay pat : String) : Bool := hasSubL pat.toList hay.toList

/-- The catch-branch test: message contains `timed out`, `expired`,
`invalid` or `401`. -/
def isEvictionErrorMsg (msg : String) : Bool :=
  includesStr msg "timed out" || includesStr msg "expired" ||
    includesStr msg "invalid" || includesStr msg "401"

/-- The observable outcome of one `handleOAuthPoll` call. -/
inductive PollApiResult
  | missingState
  | expired
  | pendingWarning
  | success (tokenId : String)
  | pendingNormal
  | authFailed
  | errorEvicted (msg : String)
  | pendingAfterError
deriving Repr, DecidableEq

/-- `safeDeleteOAuthState`: remove the session from memory and KV. -/
def evictOAuth (s : ServerState) (stateId : String) : ServerState :=
  { s with oauthStates := delEntry s.oauthStates stateId,
           kvOauth := delEntry s.kvOauth stateId }

/-- Core of `handleOAuthPoll` for a given `stateId`: look the session up in
memory then KV, refresh `lastUsedAt`, run the expiry checks (60s grace past
`expiresAt` evicts; the last 60s before it short-circuits to a pending
warning without polling), then make exactly one upstream poll and dispatch
on its outcome exactly as the source does. The final component counts
upstream poll calls. -/
def handleOAuthPoll (poll : PollFn) (now : Int) (s : ServerState)
    (stateId : String) : ServerState × PollApiResult × Nat :=
  let stateFound : Option OAuthState :=
    match getEntry s.oauthStates stateId with
    | some st => some st
    | none => getEntry s.kvOauth stateId
  match stateFound with
  | none => (s, .missingState, 0)
  | some st0 =>
    let st := { st0 with lastUsedAt := some now }
    let s1 := { s with oauthStates := setEntry s.oauthStates stateId st,
                       kvOauth := setEntry s.kvOauth stateId st }
    if truthyI st.expiresAt && decide (now > st.expiresAt.getD 0 + 60000) then
      (evictOAuth s1 stateId, .expired, 0)
    else if truthyI st.expiresAt && decide (now > st.expiresAt.getD 0 - 60000) then
      (s1, .pendingWarning, 0)
    else
      match poll st.deviceCode st.codeVerifier with
      | .raise msg =>
        if isEvictionErrorMsg msg then (evictOAuth s1 stateId, .errorEvicted msg, 1)
        else (s1, .pendingAfterError, 1)
      | .json atk rt ei isPending slow =>
        if truthyS atk then
          let tokenData : TokenData :=
            { access_token := atk.getD "", refresh_token := rt,
              expires_at := some (now + jsOrI ei 3600 * 1000),
              uploaded_at := now }
          let tokenId := getTokenId rt
          let s2 := { s1 with tokenStore := setEntry s1.tokenStore tokenId tokenData,
                              kvTokens := setEntry s1.kvTokens tokenId tokenData }
          (evictOAuth s2 stateId, .success tokenId, 1)
        else if isPending then
          let st2 := if slow
            then { st with pollInterval := some (min (jsOrR st.pollInterval 2 * (3 / 2)) 10) }
            else st
          ({ s1 with oauthStates := setEntry s1.oauthStates stateId st2 }, .pendingNormal, 1)
        else
          (evictOAuth s1 stateId, .authFailed, 1)

/-- The empty server state. -/
def emptyState : ServerState := ⟨[], [], [], []⟩

/-- Fixture: a live session far from expiry. -/
def cSession : OAuthState := ⟨"D1", "V1", some 1000000, some 2, some 0, some 0⟩

/-- Fixture: a state holding `cSession` under id `sid` in memory and KV. -/
def cState3 : ServerState := ⟨[("sid", cSession)], [("sid", cSession)], [], []⟩

/-- Fixture: an upstream poll that throws an error whose message matches
none of the eviction patterns. -/
def cPollDenied : PollFn :=
  fun _ _ => .raise "Device token poll failed: access_denied - Access denied"

/-- Fixture: an always-failing refresh endpoint. -/
def rcNone : RefreshFn := fun _ => none

/-- Fixture: a refresh endpoint returning a full token response. -/
def rcGood : RefreshFn := fun _ => some ⟨"newA", some "freshRTvalue", some 3600⟩

/-- Fixture: a refresh endpoint whose response omits `refresh_token` and
`expires_in`. -/
def rcNoRt : RefreshFn := fun _ => some ⟨"newA", none, none⟩

/-- Fixture: a record already expired at time 1000. -/
def tokExpired : TokenData := ⟨"a1", "refreshtokenABCDEFGH", some 500, 42⟩

/-- Fixture: a record valid at time 1000. -/
def tokFresh : TokenData := ⟨"a2", "secondRTvalue", some 99999, 7⟩

/-- Fixture: a record with no `expires_at`. -/
def tokNoExp : TokenData := ⟨"a3", "rtokenNoExp", none, 9⟩

/-- Fixture: a pool with one expired and one fresh record in KV. -/
def sPool : ServerState :=
  ⟨[], [], [], [("refresht", tokExpired), ("secondRT", tokFresh)]⟩

/-- Fixture: a pool with two never-expiring records in KV. -/
def sPoolValid : ServerState :=
  ⟨[], [], [], [("rtokenNo", tokNoExp), ("secondRT", tokFresh)]⟩

end Qwen

namespace Cerebras

theorem runTicks_roundRobin (fetch : FetchFn) (keys : List String)
    (hk : keys ≠ []) :
    ∀ (items : List QueueItem) (i : Nat),
      runTicks fetch items.length
          { requestQueue := items, apiKeys := keys,
            currentKeyIndex := i % keys.length }
        = ({ requestQueue := [], apiKeys := keys,
             currentKeyIndex := (i + items.length) % keys.length },
           roundRobinEvents fetch keys i items) := by
  intro items
  induction items with
  | nil =>
    intro i
    simp [runTicks, roundRobinEvents]
  | cons item rest ih =>
    intro i
    have hlen : 0 < keys.length := List.length_pos.mpr hk
    have hcons : (item :: rest : List QueueItem) ≠ [] := by simp
    simp only [List.length_cons, runTicks, processQueue]
    rw [if_neg (by simp [hk])]
    simp only [Option.toList_some]
    have hmod : (i % keys.length + 1) % keys.length = (i + 1) % keys.length := by
      conv_rhs => rw [← Nat.mod_add_mod]
    rw [hmod]
    have := ih (i + 1)
    simp only [this, roundRobinEvents]
    have harith : i + 1 + rest.length = i + (rest.length + 1) := by omega
    rw [harith]
    simp

theorem roundRobinEvents_rids (fetch : FetchFn) (keys : List String) :
    ∀ (items : List QueueItem) (i : Nat),
      (roundRobinEvents fetch keys i items).map TickEvent.rid
        = items.map QueueItem.rid := by
  intro items
  induction items with
  | nil => intro i; simp [roundRobinEvents]
  | cons item rest ih => intro i; simp [roundRobinEvents, ih (i + 1)]

theorem roundRobinEvents_length (fetch : FetchFn) (keys : List String) :
    ∀ (items : List QueueItem) (i : Nat),
      (roundRobinEvents fetch keys i items).length = items.length := by
  intro items
  induction items with
  | nil => intro i; simp [roundRobinEvents]
  | cons item rest ih => intro i; simp [roundRobinEvents, ih (i + 1)]

/-- The `k`-th resolution event: the `k`-th enqueued item's resolver, the
round-robin key `apiKeys[(i + k) mod poolSize]`, and the upstream-or-502
response for that item under that key. -/
theorem roundRobinEvents_getD (fetch : FetchFn) (keys : List String)
    (d : TickEvent) (d0 : QueueItem) :
    ∀ (items : List QueueItem) (i k : Nat), k < items.length →
      (roundRobinEvents fetch keys i items).getD k d
        = { rid := (items.getD k d0).rid,
            key := keys.getD ((i + k) % keys.length) "",
            resp := respOf (fetch (keys.getD ((i + k) % keys.length) "")
                      (items.getD k d0).reqBody) } := by
  intro items
  induction items with
  | nil => intro i k hk; simp at hk
  | cons item rest ih =>
    intro i k hk
    match k with
    | 0 => simp [roundRobinEvents]
    | k + 1 =>
      have hk2 : k < rest.length := by simpa using hk
      have := ih (i + 1) k hk2
      simp only [roundRobinEvents, List.getD_cons_succ, this]
      have harith : i + 1 + k = i + (k + 1) := by omega
      rw [harith]

/-- C2: with K requests queued and a pool of M >= 1 keys starting at index 0,
after K ticker firings the queue is drained, every item's pending handle has
been resolved exactly once (the event stream lists exactly the enqueued
resolvers, in order), the key attached to the k-th item is
`apiKeys[k mod M]` (round-robin from 0), and each resolution carries the
upstream response on success or a 502 `Proxy error` on transport failure. -/
theorem claim_C2_dispatch_resolves_all_round_robin
    (fetch : FetchFn) (keys : List String) (items : List QueueItem)
    (dE : TickEvent) (dI : QueueItem) (h : 1 ≤ keys.length) :
    (runTicks fetch items.length
        { requestQueue := items, apiKeys := keys,
          currentKeyIndex := 0 }).1.requestQueue = [] ∧
    (runTicks fetch items.length
        { requestQueue := items, apiKeys := keys,
          currentKeyIndex := 0 }).2.map TickEvent.rid
      = items.map QueueItem.rid ∧
    ∀ k, k < items.length →
      ((runTicks fetch items.length
          { requestQueue := items, apiKeys := keys,
            currentKeyIndex := 0 }).2.getD k dE).key
          = keys.getD (k % keys.length) "" ∧
      ((runTicks fetch items.length
          { requestQueue := items, apiKeys := keys,
            currentKeyIndex := 0 }).2.getD k dE).resp
          = respOf (fetch (keys.getD (k % keys.length) "")
              (items.getD k dI).reqBody) := by
  have hk : keys ≠ [] := by
    intro hnil; rw [hnil] at h; simp at h
  have h0 : (0 : Nat) = 0 % keys.length := by
    rw [Nat.zero_mod]
  have hrun := runTicks_roundRobin fetch keys hk items 0
  rw [Nat.zero_mod] at hrun
  refine ⟨?_, ?_, ?_⟩
  · rw [hrun]
  · rw [hrun]
    exact roundRobinEvents_rids fetch keys items 0
  · intro k hklt
    rw [hrun]
    have := roundRobinEvents_getD fetch keys dE dI items 0 k hklt
    simp only [Nat.zero_add] at this
    rw [this]
    exact ⟨rfl, rfl⟩

theorem claim_C2_dispatch_resolves_all_round_robin_witness :
    (1 ≤ sampleKeys.length) ∧
    ((runTicks sampleFetchOk sampleItems.length
        { requestQueue := sampleItems, apiKeys := sampleKeys, currentKeyIndex := 0 }).1.requestQueue = [] ∧
    (runTicks sampleFetchOk sampleItems.length
        { requestQueue := sampleItems, apiKeys := sampleKeys, currentKeyIndex := 0 }).2.map TickEvent.rid
      = sampleItems.map QueueItem.rid ∧
    ∀ k, k < sampleItems.length →
      ((runTicks sampleFetchOk sampleItems.length
          { requestQueue := sampleItems, apiKeys := sampleKeys, currentKeyIndex := 0 }).2.getD k dEvent).key
          = sampleKeys.getD (k % sampleKeys.length) "" ∧
      ((runTicks sampleFetchOk sampleItems.length
          { requestQueue := sampleItems, apiKeys := sampleKeys, currentKeyIndex := 0 }).2.getD k dEvent).resp
          = respOf (sampleFetchOk (sampleKeys.getD (k % sampleKeys.length) "")
              (sampleItems.getD k dItem).reqBody)) :=
  ⟨by decide,
   claim_C2_dispatch_resolves_all_round_robin sampleFetchOk sampleKeys
     sampleItems dEvent dItem (by decide)⟩

/-- C7: a single ticker firing is a no-op when the request queue or the key
pool is empty; otherwise it dequeues exactly the head item and issues
exactly one upstream call (so never more than one per tick, whatever the
pool size and queue depth). -/
theorem claim_C7_one_item_per_tick (fetch : FetchFn) (s : ProxyState) :
    (s.requestQueue = [] ∨ s.apiKeys = [] →
      processQueue fetch s = (s, none, 0)) ∧
    (∀ item rest, s.requestQueue = item :: rest → s.apiKeys ≠ [] →
      processQueue fetch s =
        ({ requestQueue := rest, apiKeys := s.apiKeys,
           currentKeyIndex := (s.currentKeyIndex + 1) % s.apiKeys.length },
         some { rid := item.rid, key := s.apiKeys.getD s.currentKeyIndex "",
                resp := respOf (fetch (s.apiKeys.getD s.currentKeyIndex "")
                          item.reqBody) }, 1)) := by
  constructor
  · intro hempty
    simp [processQueue, hempty]
  · intro item rest hq hkeys
    simp [processQueue, hq, hkeys]

theorem claim_C7_one_item_per_tick_witness :
    processQueue sampleFetchDown
        ⟨[⟨"b", 7⟩], ["k"], 0⟩
      = (⟨[], ["k"], 1 % 1⟩,
         some ⟨7, "k", respOf (sampleFetchDown "k" "b")⟩, 1) :=
  (claim_C7_one_item_per_tick sampleFetchDown
      ⟨[⟨"b", 7⟩], ["k"], 0⟩).2
    ⟨"b", 7⟩ [] rfl (by decide)

end Cerebras

namespace Qwen

theorem getEntry_setEntry {α : Type} (m : List (String × α)) (k : String) (v : α)
    (q : String) :
    getEntry (setEntry m k v) q = if q = k then some v else getEntry m q := by
  induction m with
  | nil =>
    by_cases h : q = k
    · subst h; simp [getEntry, setEntry]
    · have h2 : ¬ k = q := fun hk => h hk.symm
      simp [getEntry, setEntry, h, h2]
  | cons hd tl ih =>
    obtain ⟨k0, w⟩ := hd
    by_cases h0 : k0 = k
    · subst h0
      by_cases h : q = k0
      · subst h; simp [getEntry, setEntry]
      · have h2 : ¬ k0 = q := fun hk => h hk.symm
        simp [getEntry, setEntry, h, h2]
    · by_cases h1 : k0 = q
      · subst h1
        have hqk : ¬ k0 = k := h0
        simp [getEntry, setEntry, h0, hqk]
      · by_cases h : q = k
        · subst h
          simp [getEntry, setEntry, h0, h1, ih]
        · simp [getEntry, setEntry, h0, h1, h, ih]

theorem getEntry_eq_none_of_not_mem {α : Type} (m : List (String × α)) (q : String)
    (h : q ∉ m.map Prod.fst) : getEntry m q = none := by
  induction m with
  | nil => rfl
  | cons hd tl ih =>
    obtain ⟨k0, w⟩ := hd
    simp only [List.map_cons, List.mem_cons, not_or] at h
    have h1 : ¬ k0 = q := fun hk => h.1 hk.symm
    simp [getEntry, h1, ih h.2]

theorem getEntry_some_mem {α : Type} (m : List (String × α)) (q : String) (v : α)
    (h : getEntry m q = some v) : (q, v) ∈ m := by
  induction m with
  | nil => simp [getEntry] at h
  | cons hd tl ih =>
    obtain ⟨k0, w⟩ := hd
    by_cases h0 : k0 = q
    · subst h0
      simp [getEntry] at h
      simp [h]
    · simp [getEntry, h0] at h
      exact List.mem_cons_of_mem _ (ih h)

theorem getEntry_delEntry_ne {α : Type} (m : List (String × α)) (k q : String)
    (h : q ≠ k) : getEntry (delEntry m k) q = getEntry m q := by
  induction m with
  | nil => rfl
  | cons hd tl ih =>
    obtain ⟨k0, w⟩ := hd
    by_cases h0 : k0 = k
    · subst h0
      have h1 : ¬ k0 = q := fun hk => h hk.symm
      simp [getEntry, delEntry, h1]
    · by_cases h1 : k0 = q
      · subst h1
        simp [getEntry, delEntry, h0]
      · simp [getEntry, delEntry, h0, h1, ih]

theorem getEntry_delEntry_self {α : Type} (m : List (String × α)) (k : String)
    (h : keysNodup m) : getEntry (delEntry m k) k = none := by
  induction m with
  | nil => rfl
  | cons hd tl ih =>
    obtain ⟨k0, w⟩ := hd
    rw [keysNodup, List.map_cons, List.nodup_cons] at h
    by_cases h0 : k0 = k
    · subst h0
      simp only [delEntry, if_pos rfl]
      exact getEntry_eq_none_of_not_mem tl k0 h.1
    · simp [delEntry, h0, getEntry, ih h.2]

theorem mem_keys_setEntry {α : Type} (m : List (String × α)) (k : String) (v : α)
    (q : String) (h : q ∈ (setEntry m k v).map Prod.fst) :
    q ∈ m.map Prod.fst ∨ q = k := by
  induction m with
  | nil =>
    right
    simpa [setEntry] using h
  | cons hd tl ih =>
    obtain ⟨k0, w⟩ := hd
    by_cases h0 : k0 = k
    · subst h0
      rw [setEntry, if_pos rfl, List.map_cons] at h
      rcases List.mem_cons.mp h with h1 | h1
      · exact Or.inr h1
      · exact Or.inl (by rw [List.map_cons]; exact List.mem_cons_of_mem _ h1)
    · rw [setEntry, if_neg h0, List.map_cons] at h
      rcases List.mem_cons.mp h with h1 | h1
      · subst h1
        exact Or.inl (by rw [List.map_cons]; exact List.mem_cons_self _ _)
      · rcases ih h1 with h2 | h2
        · exact Or.inl (by rw [List.map_cons]; exact List.mem_cons_of_mem _ h2)
        · exact Or.inr h2

theorem keysNodup_setEntry {α : Type} (m : List (String × α)) (k : String) (v : α)
    (h : keysNodup m) : keysNodup (setEntry m k v) := by
  induction m with
  | nil => simp [keysNodup, setEntry]
  | cons hd tl ih =>
    obtain ⟨k0, w⟩ := hd
    rw [keysNodup, List.map_cons, List.nodup_cons] at h
    by_cases h0 : k0 = k
    · subst h0
      rw [keysNodup, setEntry, if_pos rfl, List.map_cons]
      exact List.nodup_cons.mpr h
    · rw [keysNodup, setEntry, if_neg h0, List.map_cons]
      refine List.nodup_cons.mpr ⟨?_, ih h.2⟩
      intro hmem
      rcases mem_keys_setEntry tl k v k0 hmem with h2 | h2
      · exact h.1 h2
      · exact h0 h2

theorem setEntry_length_of_mem {α : Type} (m : List (String × α)) (k : String)
    (v : α) (h : (getEntry m k).isSome) : (setEntry m k v).length = m.length := by
  induction m with
  | nil => simp [getEntry] at h
  | cons hd tl ih =>
    obtain ⟨k0, w⟩ := hd
    by_cases h0 : k0 = k
    · simp [setEntry, h0]
    · simp only [getEntry, h0, if_false] at h
      simp [setEntry, h0, ih h]

/-- C1: the claim's concrete id is wrong: the first 8 characters of
`refreshtokenABCDEFGH` are `refresht`, not the 9-character `refreshto`;
the upload stores nothing under `refreshto`. -/
theorem claim_C1_counterexample :
    getTokenId "refreshtokenABCDEFGH" ≠ "refreshto" ∧
    (handleUploadToken emptyState 1000 "a1" "refreshtokenABCDEFGH" none none).2
      = "refresht" ∧
    getEntry (handleUploadToken emptyState 1000 "a1" "refreshtokenABCDEFGH"
        none none).1.tokenStore "refreshto" = none := by
  refine ⟨?_, ?_, ?_⟩ <;> decide

/-- C1 (amended): an upload stores the record under the first 8 characters
of the refresh token (for `refreshtokenABCDEFGH` that is `refresht`), and a
second upload whose refresh token shares that 8-character first segment
overwrites the first record in place - same key, same map size - rather
than adding a second record. -/
theorem claim_C1_upload_id_overwrite
    (s : ServerState) (now1 now2 : Int) (a1 r1 a2 r2 : String)
    (e1 f1 e2 f2 : Option Int) (hpre : getTokenId r2 = getTokenId r1) :
    (handleUploadToken s now1 a1 r1 e1 f1).2 = (r1.toList.take 8).asString ∧
    (handleUploadToken (handleUploadToken s now1 a1 r1 e1 f1).1 now2 a2 r2 e2 f2).2
      = (handleUploadToken s now1 a1 r1 e1 f1).2 ∧
    getEntry (handleUploadToken (handleUploadToken s now1 a1 r1 e1 f1).1
        now2 a2 r2 e2 f2).1.tokenStore ((r1.toList.take 8).asString)
      = some ⟨a2, r2, some (jsOrI e2 (jsOrI f2 (now2 + 60 * 60 * 1000))), now2⟩ ∧
    (handleUploadToken (handleUploadToken s now1 a1 r1 e1 f1).1
        now2 a2 r2 e2 f2).1.tokenStore.length
      = (handleUploadToken s now1 a1 r1 e1 f1).1.tokenStore.length ∧
    getEntry (handleUploadToken (handleUploadToken s now1 a1 r1 e1 f1).1
        now2 a2 r2 e2 f2).1.kvTokens ((r1.toList.take 8).asString)
      = some ⟨a2, r2, some (jsOrI e2 (jsOrI f2 (now2 + 60 * 60 * 1000))), now2⟩ := by
  refine ⟨rfl, hpre, ?_, ?_, ?_⟩
  · simp only [handleUploadToken, hpre]
    rw [getEntry_setEntry]
    simp [getTokenId]
  · simp only [handleUploadToken, hpre]
    exact setEntry_length_of_mem _ _ _ (by rw [getEntry_setEntry]; simp)
  · simp only [handleUploadToken, hpre]
    rw [getEntry_setEntry]
    simp [getTokenId]

theorem claim_C1_upload_id_overwrite_witness :
    getTokenId "refreshtXYZdifferent" = getTokenId "refreshtokenABCDEFGH" ∧
    ((handleUploadToken emptyState 1000 "a1" "refreshtokenABCDEFGH" none none).2
        = ("refreshtokenABCDEFGH".toList.take 8).asString ∧
    (handleUploadToken (handleUploadToken emptyState 1000 "a1"
        "refreshtokenABCDEFGH" none none).1 2000 "a2" "refreshtXYZdifferent"
        none none).2
      = (handleUploadToken emptyState 1000 "a1" "refreshtokenABCDEFGH" none none).2 ∧
    getEntry (handleUploadToken (handleUploadToken emptyState 1000 "a1"
        "refreshtokenABCDEFGH" none none).1 2000 "a2" "refreshtXYZdifferent"
        none none).1.tokenStore (("refreshtokenABCDEFGH".toList.take 8).asString)
      = some ⟨"a2", "refreshtXYZdifferent",
          some (jsOrI none (jsOrI none (2000 + 60 * 60 * 1000))), 2000⟩ ∧
    (handleUploadToken (handleUploadToken emptyState 1000 "a1"
        "refreshtokenABCDEFGH" none none).1 2000 "a2" "refreshtXYZdifferent"
        none none).1.tokenStore.length
      = (handleUploadToken emptyState 1000 "a1" "refreshtokenABCDEFGH"
          none none).1.tokenStore.length ∧
    getEntry (handleUploadToken (handleUploadToken emptyState 1000 "a1"
        "refreshtokenABCDEFGH" none none).1 2000 "a2" "refreshtXYZdifferent"
        none none).1.kvTokens (("refreshtokenABCDEFGH".toList.take 8).asString)
      = some ⟨"a2", "refreshtXYZdifferent",
          some (jsOrI none (jsOrI none (2000 + 60 * 60 * 1000))), 2000⟩) :=
  ⟨by decide,
   claim_C1_upload_id_overwrite emptyState 1000 2000 "a1" "refreshtokenABCDEFGH"
     "a2" "refreshtXYZdifferent" none none none none (by decide)⟩

/-- C6: an unexpired record is returned unchanged by a non-forced refresh,
with the store untouched and no upstream call; and every successful refresh
(forced, or non-forced on an expired record) stores, under the same id,
a record whose access token and expiry come from the response and whose
`uploaded_at` is carried over unchanged. -/
theorem claim_C6_refresh_frame (rc : RefreshFn) (now : Int) (s : ServerState)
    (id : String) (token : TokenData) :
    (isExpiredCheck now token = false →
      validateAndRefreshToken rc now s id token = (s, some token, 0)) ∧
    (∀ data, rc token.refresh_token = some data →
      forceRefreshToken rc now s id token
        = ({ s with
              tokenStore := setEntry s.tokenStore id (updatedTokenData now token data),
              kvTokens := setEntry s.kvTokens id (updatedTokenData now token data) },
           some (updatedTokenData now token data), 1) ∧
      getEntry (forceRefreshToken rc now s id token).1.tokenStore id
        = some (updatedTokenData now token data) ∧
      (updatedTokenData now token data).uploaded_at = token.uploaded_at ∧
      (updatedTokenData now token data).access_token = data.access_token ∧
      (updatedTokenData now token data).refresh_token
        = jsOrS data.refresh_token token.refresh_token ∧
      (updatedTokenData now token data).expires_at
        = some (if truthyI data.expires_in then now + data.expires_in.getD 0 * 1000
            else now + 60 * 60 * 1000)) ∧
    (∀ data, isExpiredCheck now token = true → rc token.refresh_token = some data →
      validateAndRefreshToken rc now s id token
        = ({ s with
              tokenStore := setEntry s.tokenStore id (updatedTokenData now token data),
              kvTokens := setEntry s.kvTokens id (updatedTokenData now token data) },
           some (updatedTokenData now token data), 1)) := by
  refine ⟨?_, ?_, ?_⟩
  · intro h
    simp [validateAndRefreshToken, h]
  · intro data hd
    refine ⟨by simp [forceRefreshToken, hd], ?_, rfl, rfl, rfl, rfl⟩
    simp only [forceRefreshToken, hd]
    rw [getEntry_setEntry]
    simp
  · intro data hexp hd
    simp [validateAndRefreshToken, hexp, hd]

theorem claim_C6_refresh_frame_witness :
    isExpiredCheck 1000 tokExpired = true ∧
    rcGood tokExpired.refresh_token = some ⟨"newA", some "freshRTvalue", some 3600⟩ ∧
    validateAndRefreshToken rcGood 1000 emptyState "refresht" tokExpired
      = ({ emptyState with
            tokenStore := setEntry emptyState.tokenStore "refresht"
              (updatedTokenData 1000 tokExpired ⟨"newA", some "freshRTvalue", some 3600⟩),
            kvTokens := setEntry emptyState.kvTokens "refresht"
              (updatedTokenData 1000 tokExpired ⟨"newA", some "freshRTvalue", some 3600⟩) },
         some (updatedTokenData 1000 tokExpired ⟨"newA", some "freshRTvalue", some 3600⟩), 1) :=
  ⟨by decide, by decide,
   (claim_C6_refresh_frame rcGood 1000 emptyState "refresht" tokExpired).2.2
     ⟨"newA", some "freshRTvalue", some 3600⟩ (by decide) (by decide)⟩

/-- C9: a successful refresh stores the updated record under the id the
record already had, touching no other key - in particular, when the first
8 characters of the new refresh token differ from the id, nothing is stored
under that derived id - and a response omitting `refresh_token` leaves the
stored refresh token unchanged, so `id = getTokenId refresh_token` need not
hold after a refresh. -/
theorem claim_C9_refresh_keeps_key (rc : RefreshFn) (now : Int) (s : ServerState)
    (id : String) (token : TokenData) (data : RefreshResponse)
    (hd : rc token.refresh_token = some data) :
    getEntry (forceRefreshToken rc now s id token).1.tokenStore id
      = some (updatedTokenData now token data) ∧
    getEntry (forceRefreshToken rc now s id token).1.kvTokens id
      = some (updatedTokenData now token data) ∧
    (∀ q, q ≠ id →
      getEntry (forceRefreshToken rc now s id token).1.tokenStore q
        = getEntry s.tokenStore q) ∧
    (getTokenId (updatedTokenData now token data).refresh_token ≠ id →
      getEntry (forceRefreshToken rc now s id token).1.tokenStore
          (getTokenId (updatedTokenData now token data).refresh_token)
        = getEntry s.tokenStore
            (getTokenId (updatedTokenData now token data).refresh_token)) ∧
    (truthyS data.refresh_token = false →
      (updatedTokenData now token data).refresh_token = token.refresh_token) ∧
    (isExpiredCheck now token = true →
      getEntry (validateAndRefreshToken rc now s id token).1.tokenStore id
        = some (updatedTokenData now token data)) := by
  have hmain : ∀ q, getEntry (forceRefreshToken rc now s id token).1.tokenStore q
      = if q = id then some (updatedTokenData now token data)
        else getEntry s.tokenStore q := by
    intro q
    simp only [forceRefreshToken, hd]
    exact getEntry_setEntry _ _ _ _
  refine ⟨?_, ?_, ?_, ?_, ?_, ?_⟩
  · rw [hmain]; simp
  · simp only [forceRefreshToken, hd]
    rw [getEntry_setEntry]; simp
  · intro q hq
    rw [hmain, if_neg hq]
  · intro hne
    rw [hmain, if_neg hne]
  · intro ht
    simp [updatedTokenData, jsOrS, ht]
  · intro hexp
    simp only [validateAndRefreshToken, hexp]
    simp only [Bool.true_eq_false, if_false, hd]
    rw [getEntry_setEntry]
    simp

theorem claim_C9_refresh_keeps_key_witness :
    rcNoRt tokExpired.refresh_token = some ⟨"newA", none, none⟩ ∧
    (getEntry (forceRefreshToken rcNoRt 1000 emptyState "refresht"
          tokExpired).1.tokenStore "refresht"
        = some (updatedTokenData 1000 tokExpired ⟨"newA", none, none⟩) ∧
    getEntry (forceRefreshToken rcNoRt 1000 emptyState "refresht"
          tokExpired).1.kvTokens "refresht"
        = some (updatedTokenData 1000 tokExpired ⟨"newA", none, none⟩) ∧
    (∀ q, q ≠ "refresht" →
      getEntry (forceRefreshToken rcNoRt 1000 emptyState "refresht"
          tokExpired).1.tokenStore q = getEntry emptyState.tokenStore q) ∧
    (getTokenId (updatedTokenData 1000 tokExpired ⟨"newA", none, none⟩).refresh_token
        ≠ "refresht" →
      getEntry (forceRefreshToken rcNoRt 1000 emptyState "refresht"
          tokExpired).1.tokenStore
          (getTokenId (updatedTokenData 1000 tokExpired ⟨"newA", none, none⟩).refresh_token)
        = getEntry emptyState.tokenStore
            (getTokenId (updatedTokenData 1000 tokExpired ⟨"newA", none, none⟩).refresh_token)) ∧
    (truthyS (none : Option String) = false →
      (updatedTokenData 1000 tokExpired ⟨"newA", none, none⟩).refresh_token
        = tokExpired.refresh_token) ∧
    (isExpiredCheck 1000 tokExpired = true →
      getEntry (validateAndRefreshToken rcNoRt 1000 emptyState "refresht"
          tokExpired).1.tokenStore "refresht"
        = some (updatedTokenData 1000 tokExpired ⟨"newA", none, none⟩))) :=
  ⟨by decide,
   claim_C9_refresh_keeps_key rcNoRt 1000 emptyState "refresht" tokExpired
     ⟨"newA", none, none⟩ (by decide)⟩

theorem tokenStatusLoop_cons_shape (rc : RefreshFn) (now : Int) (s2 : ServerState)
    (id0 : String) (t0 : TokenData) (rest : List (String × TokenData)) :
    ∃ e s3, (tokenStatusLoop rc now s2 ((id0, t0) :: rest)).2
      = e :: (tokenStatusLoop rc now s3 rest).2 := by
  by_cases hE0 : isExpiredCheck now t0
  · rcases hv : (validateAndRefreshToken rc now s2 id0 t0).2.1 with _ | u
    · exact ⟨⟨id0, t0.expires_at, true, t0.uploaded_at, false, true⟩,
        (validateAndRefreshToken rc now s2 id0 t0).1,
        by simp [tokenStatusLoop, hE0, hv]⟩
    · exact ⟨⟨id0, u.expires_at, false, u.uploaded_at, true, false⟩,
        (validateAndRefreshToken rc now s2 id0 t0).1,
        by simp [tokenStatusLoop, hE0, hv]⟩
  · exact ⟨⟨id0, t0.expires_at, false, t0.uploaded_at, false, false⟩, s2,
      by simp [tokenStatusLoop, hE0]⟩

/-- C10: a record with no `expires_at` is classified as never expired: a
non-forced refresh returns it unchanged without any upstream call, the
status listing reports it as not expired and not refreshed, and the
selection loop always keeps it in the valid candidate set. -/
theorem claim_C10_no_expiry_never_expired (rc : RefreshFn) (now : Int)
    (s : ServerState) (id : String) (token : TokenData)
    (h : token.expires_at = none) :
    isExpiredCheck now token = false ∧
    validateAndRefreshToken rc now s id token = (s, some token, 0) ∧
    (∀ s2 entries, (id, token) ∈ entries →
      (⟨id, token.expires_at, false, token.uploaded_at, false, false⟩ : TokenStatusEntry)
        ∈ (tokenStatusLoop rc now s2 entries).2) ∧
    (∀ s2 entries, (id, token) ∈ entries →
      (id, token) ∈ (collectValid rc now s2 entries).2) := by
  have hE : isExpiredCheck now token = false := by
    simp [isExpiredCheck, h, truthyI]
  refine ⟨hE, by simp [validateAndRefreshToken, hE], ?_, ?_⟩
  · intro s2 entries hmem
    induction entries generalizing s2 with
    | nil => simp at hmem
    | cons hd rest ih =>
      obtain ⟨id0, t0⟩ := hd
      rcases List.mem_cons.mp hmem with hh | hh
      · rw [Prod.mk.injEq] at hh
        obtain ⟨h1, h2⟩ := hh
        subst h1; subst h2
        simp [tokenStatusLoop, hE]
      · obtain ⟨e, s3, heq⟩ := tokenStatusLoop_cons_shape rc now s2 id0 t0 rest
        rw [heq]
        exact List.mem_cons_of_mem _ (ih s3 hh)
  · intro s2 entries hmem
    induction entries generalizing s2 with
    | nil => simp at hmem
    | cons hd rest ih =>
      obtain ⟨id0, t0⟩ := hd
      rcases List.mem_cons.mp hmem with hh | hh
      · rw [Prod.mk.injEq] at hh
        obtain ⟨h1, h2⟩ := hh
        subst h1; subst h2
        simp [collectValid, validateAndRefreshToken, hE]
      · rcases hv : (validateAndRefreshToken rc now s2 id0 t0).2.1 with _ | u
        · have : (collectValid rc now s2 ((id0, t0) :: rest)).2
              = (collectValid rc now (validateAndRefreshToken rc now s2 id0 t0).1 rest).2 := by
            simp [collectValid, hv]
          rw [this]
          exact ih _ hh
        · have : (collectValid rc now s2 ((id0, t0) :: rest)).2
              = (id0, u)
                :: (collectValid rc now (validateAndRefreshToken rc now s2 id0 t0).1 rest).2 := by
            simp [collectValid, hv]
          rw [this]
          exact List.mem_cons_of_mem _ (ih _ hh)

theorem consSetPerm {α : Type} : ∀ (t : List α) (m : Nat) (a y : α),
    t[m]? = some y → List.Perm (y :: t.set m a) (a :: t) := by
  intro t
  induction t with
  | nil => intro m a y hy; simp at hy
  | cons b s ih =>
    intro m a y hy
    match m with
    | 0 =>
      simp only [List.getElem?_cons_zero, Option.some.injEq] at hy
      subst hy
      simp only [List.set_cons_zero]
      exact List.Perm.swap a b s
    | m + 1 =>
      simp only [List.getElem?_cons_succ] at hy
      simp only [List.set_cons_succ]
      exact ((List.Perm.swap b y _).trans
        (List.Perm.cons b (ih m a y hy))).trans (List.Perm.swap a b s)

theorem setSetPerm {α : Type} : ∀ (l : List α) (i j : Nat) (x y : α),
    l[i]? = some x → l[j]? = some y → List.Perm ((l.set i y).set j x) l := by
  intro l
  induction l with
  | nil => intro i j x y hx hy; simp at hx
  | cons a t ih =>
    intro i j x y hx hy
    match i, j with
    | 0, 0 =>
      simp only [List.getElem?_cons_zero, Option.some.injEq] at hx hy
      subst hx; subst hy
      simp
    | 0, n + 1 =>
      simp only [List.getElem?_cons_zero, Option.some.injEq] at hx
      simp only [List.getElem?_cons_succ] at hy
      subst hx
      simp only [List.set_cons_zero, List.set_cons_succ]
      exact consSetPerm t n a y hy
    | m + 1, 0 =>
      simp only [List.getElem?_cons_zero, Option.some.injEq] at hy
      simp only [List.getElem?_cons_succ] at hx
      subst hy
      simp only [List.set_cons_succ, List.set_cons_zero]
      exact consSetPerm t m a x hx
    | m + 1, n + 1 =>
      simp only [List.getElem?_cons_succ] at hx hy
      simp only [List.set_cons_succ]
      exact List.Perm.cons a (ih m n x y hx hy)

theorem swapL_perm {α : Type} (l : List α) (i j : Nat) :
    List.Perm (swapL l i j) l := by
  unfold swapL
  rcases hx : l[i]? with _ | x
  · simp
  · rcases hy : l[j]? with _ | y
    · simp
    · exact setSetPerm l i j x y hx hy

theorem fyAux_perm {α : Type} (seed : Nat → Nat) :
    ∀ (n : Nat) (l : List α), List.Perm (fyAux seed n l) l := by
  intro n
  induction n with
  | zero => intro l; exact List.Perm.refl l
  | succ n ih =>
    intro l
    exact (ih _).trans (swapL_perm l (n + 1) (seed (n + 1) % (n + 2)))

theorem fyShuffle_perm {α : Type} (seed : Nat → Nat) (l : List α) :
    List.Perm (fyShuffle seed l) l :=
  fyAux_perm seed (l.length - 1) l

theorem getD_range_map {α : Type} :
    ∀ (l : List α) (d : α), (List.range l.length).map (fun r => l.getD r d) = l := by
  intro l
  induction l with
  | nil => intro d; simp
  | cons a t ih =>
    intro d
    rw [List.length_cons, List.range_succ_eq_map, List.map_cons, List.map_map]
    simp only [List.getD_cons_zero]
    congr 1
    have : ((fun r => (a :: t).getD r d) ∘ Nat.succ) = fun r => t.getD r d := by
      funext r
      simp
    rw [this, ih d]

theorem getD_mem {α : Type} :
    ∀ (l : List α) (n : Nat) (d : α), n < l.length → l.getD n d ∈ l := by
  intro l
  induction l with
  | nil => intro n d h; simp at h
  | cons a t ih =>
    intro n d h
    match n with
    | 0 => simp
    | n + 1 =>
      have : n < t.length := by simpa using h
      exact List.mem_cons_of_mem _ (ih n d this)

theorem collectValid_allValid (rc : RefreshFn) (now : Int) :
    ∀ (entries : List (String × TokenData)) (s2 : ServerState),
      (∀ p ∈ entries, isExpiredCheck now p.2 = false) →
      collectValid rc now s2 entries = (s2, entries) := by
  intro entries
  induction entries with
  | nil => intro s2 hvalid; rfl
  | cons hd rest ih =>
    intro s2 hvalid
    obtain ⟨id0, t0⟩ := hd
    have h0 : isExpiredCheck now t0 = false := hvalid (id0, t0) (List.mem_cons_self _ _)
    have hval : validateAndRefreshToken rc now s2 id0 t0 = (s2, some t0, 0) := by
      simp [validateAndRefreshToken, h0]
    have hrest : ∀ p ∈ rest, isExpiredCheck now p.2 = false :=
      fun p hp => hvalid p (List.mem_cons_of_mem _ hp)
    simp [collectValid, hval, ih s2 hrest]

theorem collectValid_state (rc : RefreshFn) (now : Int) (s2 : ServerState)
    (id0 : String) (t0 : TokenData) (rest : List (String × TokenData)) :
    (collectValid rc now s2 ((id0, t0) :: rest)).1
      = (collectValid rc now (validateAndRefreshToken rc now s2 id0 t0).1 rest).1 := by
  rcases hv : (validateAndRefreshToken rc now s2 id0 t0).2.1 with _ | u <;>
    simp [collectValid, hv]

theorem getEntry_isSome_setEntry {α : Type} (m : List (String × α)) (k : String)
    (v : α) (q : String) (h : (getEntry m q).isSome) :
    (getEntry (setEntry m k v) q).isSome := by
  rw [getEntry_setEntry]
  by_cases hq : q = k
  · simp [hq]
  · simp [hq, h]

theorem validateAndRefreshToken_preserves_isSome (rc : RefreshFn) (now : Int)
    (s2 : ServerState) (id0 : String) (t0 : TokenData) (q : String)
    (h1 : (getEntry s2.tokenStore q).isSome) (h2 : (getEntry s2.kvTokens q).isSome) :
    (getEntry (validateAndRefreshToken rc now s2 id0 t0).1.tokenStore q).isSome ∧
    (getEntry (validateAndRefreshToken rc now s2 id0 t0).1.kvTokens q).isSome := by
  unfold validateAndRefreshToken
  by_cases hE : isExpiredCheck now t0 = false
  · simp [hE, h1, h2]
  · rcases hrc : rc t0.refresh_token with _ | data
    · simp [hE, hrc, h1, h2]
    · simp only [hE, if_false, hrc]
      exact ⟨getEntry_isSome_setEntry _ _ _ _ h1, getEntry_isSome_setEntry _ _ _ _ h2⟩

theorem collectValid_preserves_isSome (rc : RefreshFn) (now : Int) :
    ∀ (entries : List (String × TokenData)) (s2 : ServerState) (q : String),
      (getEntry s2.tokenStore q).isSome → (getEntry s2.kvTokens q).isSome →
      (getEntry (collectValid rc now s2 entries).1.tokenStore q).isSome ∧
      (getEntry (collectValid rc now s2 entries).1.kvTokens q).isSome := by
  intro entries
  induction entries with
  | nil => intro s2 q h1 h2; exact ⟨h1, h2⟩
  | cons hd rest ih =>
    intro s2 q h1 h2
    obtain ⟨id0, t0⟩ := hd
    rw [collectValid_state]
    obtain ⟨h3, h4⟩ :=
      validateAndRefreshToken_preserves_isSome rc now s2 id0 t0 q h1 h2
    exact ih _ q h3 h4

theorem collectValid_keys_sub (rc : RefreshFn) (now : Int) :
    ∀ (entries : List (String × TokenData)) (s2 : ServerState) (q : String),
      q ∈ (collectValid rc now s2 entries).2.map Prod.fst →
      q ∈ entries.map Prod.fst := by
  intro entries
  induction entries with
  | nil => intro s2 q h; simp [collectValid] at h
  | cons hd rest ih =>
    intro s2 q h
    obtain ⟨id0, t0⟩ := hd
    rcases hv : (validateAndRefreshToken rc now s2 id0 t0).2.1 with _ | u
    · simp only [collectValid, hv] at h
      exact List.mem_cons_of_mem _ (ih _ q h)
    · simp only [collectValid, hv, List.map_cons, List.mem_cons] at h
      rcases h with h | h
      · exact List.mem_cons.mpr (Or.inl h)
      · exact List.mem_cons_of_mem _ (ih _ q h)

theorem collectValid_excludes_failing (rc : RefreshFn) (now : Int) :
    ∀ (entries : List (String × TokenData)) (s2 : ServerState) (q : String)
      (t : TokenData),
      keysNodup entries → (q, t) ∈ entries → isExpiredCheck now t = true →
      rc t.refresh_token = none →
      q ∉ (collectValid rc now s2 entries).2.map Prod.fst := by
  intro entries
  induction entries with
  | nil => intro s2 q t hnd hmem; simp at hmem
  | cons hd rest ih =>
    intro s2 q t hnd hmem hexp hrc
    obtain ⟨id0, t0⟩ := hd
    rw [keysNodup, List.map_cons, List.nodup_cons] at hnd
    rcases List.mem_cons.mp hmem with hh | hh
    · rw [Prod.mk.injEq] at hh
      obtain ⟨h1, h2⟩ := hh
      subst h1; subst h2
      have hv : (validateAndRefreshToken rc now s2 q t).2.1 = none := by
        simp [validateAndRefreshToken, hexp, hrc]
      intro hcon
      simp only [collectValid, hv] at hcon
      exact hnd.1 (collectValid_keys_sub rc now rest _ q hcon)
    · have hq : q ∈ rest.map Prod.fst :=
        List.mem_map.mpr ⟨(q, t), hh, rfl⟩
      have hne : ¬ id0 = q := fun he => hnd.1 (he ▸ hq)
      intro hcon
      rcases hv : (validateAndRefreshToken rc now s2 id0 t0).2.1 with _ | u
      · simp only [collectValid, hv] at hcon
        exact ih _ q t hnd.2 hh hexp hrc hcon
      · simp only [collectValid, hv, List.map_cons, List.mem_cons] at hcon
        rcases hcon with hcon | hcon
        · exact hne hcon.symm
        · exact ih _ q t hnd.2 hh hexp hrc hcon

/-- C3: the claim fails on the code: an upstream poll error other than
`authorization_pending`/`slow_down` that surfaces as a thrown message
matching none of the `timed out`/`expired`/`invalid`/`401` patterns (here
`access_denied`) is answered with `pending` and the session is kept in
memory and KV, not evicted. -/
theorem claim_C3_counterexample :
    (handleOAuthPoll cPollDenied 100 cState3 "sid").2.1
      = PollApiResult.pendingAfterError ∧
    getEntry (handleOAuthPoll cPollDenied 100 cState3 "sid").1.oauthStates "sid"
      = some { cSession with lastUsedAt := some 100 } ∧
    getEntry (handleOAuthPoll cPollDenied 100 cState3 "sid").1.kvOauth "sid"
      = some { cSession with lastUsedAt := some 100 } := by
  refine ⟨?_, ?_, ?_⟩ <;> decide

/-- C3 (amended): for a live session in the polling window, an upstream
token-poll answer that is neither a token nor pending evicts the session
from memory and KV and fails; a thrown poll error evicts and fails exactly
when its message matches the `timed out`/`expired`/`invalid`/`401`
patterns; a thrown error matching none of them returns pending and leaves
the session stored. -/
theorem claim_C3_poll_error_paths (poll : PollFn) (now : Int) (s : ServerState)
    (stateId : String) (st0 : OAuthState) (e : Int)
    (hmem : getEntry s.oauthStates stateId = some st0)
    (he : st0.expiresAt = some e) (hfar : now ≤ e - 60000)
    (hnd1 : keysNodup s.oauthStates) (hnd2 : keysNodup s.kvOauth) :
    (∀ atk rt ei slow,
      poll st0.deviceCode st0.codeVerifier = PollReply.json atk rt ei false slow →
      truthyS atk = false →
      (handleOAuthPoll poll now s stateId).2.1 = PollApiResult.authFailed ∧
      getEntry (handleOAuthPoll poll now s stateId).1.oauthStates stateId = none ∧
      getEntry (handleOAuthPoll poll now s stateId).1.kvOauth stateId = none) ∧
    (∀ msg, poll st0.deviceCode st0.codeVerifier = PollReply.raise msg →
      isEvictionErrorMsg msg = true →
      (handleOAuthPoll poll now s stateId).2.1 = PollApiResult.errorEvicted msg ∧
      getEntry (handleOAuthPoll poll now s stateId).1.oauthStates stateId = none ∧
      getEntry (handleOAuthPoll poll now s stateId).1.kvOauth stateId = none) ∧
    (∀ msg, poll st0.deviceCode st0.codeVerifier = PollReply.raise msg →
      isEvictionErrorMsg msg = false →
      (handleOAuthPoll poll now s stateId).2.1 = PollApiResult.pendingAfterError ∧
      getEntry (handleOAuthPoll poll now s stateId).1.oauthStates stateId
        = some { st0 with lastUsedAt := some now } ∧
      getEntry (handleOAuthPoll poll now s stateId).1.kvOauth stateId
        = some { st0 with lastUsedAt := some now }) := by
  have hc1 : (truthyI st0.expiresAt
      && decide (now > st0.expiresAt.getD 0 + 60000)) = false := by
    rw [he]
    simp [truthyI]
    omega
  have hc2 : (truthyI st0.expiresAt
      && decide (now > st0.expiresAt.getD 0 - 60000)) = false := by
    rw [he]
    simp [truthyI]
    omega
  have hdel1 : getEntry (delEntry (setEntry s.oauthStates stateId
      { st0 with lastUsedAt := some now }) stateId) stateId = none :=
    getEntry_delEntry_self _ _ (keysNodup_setEntry _ _ _ hnd1)
  have hdel2 : getEntry (delEntry (setEntry s.kvOauth stateId
      { st0 with lastUsedAt := some now }) stateId) stateId = none :=
    getEntry_delEntry_self _ _ (keysNodup_setEntry _ _ _ hnd2)
  have hset1 : getEntry (setEntry s.oauthStates stateId
      { st0 with lastUsedAt := some now }) stateId
      = some { st0 with lastUsedAt := some now } := by
    rw [getEntry_setEntry]; simp
  have hset2 : getEntry (setEntry s.kvOauth stateId
      { st0 with lastUsedAt := some now }) stateId
      = some { st0 with lastUsedAt := some now } := by
    rw [getEntry_setEntry]; simp
  refine ⟨?_, ?_, ?_⟩
  · intro atk rt ei slow hpoll hatk
    refine ⟨?_, ?_, ?_⟩ <;>
      simp [handleOAuthPoll, hmem, hc1, hc2, hpoll, hatk, evictOAuth, hdel1, hdel2]
  · intro msg hpoll hpat
    refine ⟨?_, ?_, ?_⟩ <;>
      simp [handleOAuthPoll, hmem, hc1, hc2, hpoll, hpat, evictOAuth, hdel1, hdel2]
  · intro msg hpoll hpat
    refine ⟨?_, ?_, ?_⟩ <;>
      simp [handleOAuthPoll, hmem, hc1, hc2, hpoll, hpat, hset1, hset2]

theorem claim_C3_poll_error_paths_witness :
    cState3.oauthStates = [("sid", cSession)] ∧
    ((handleOAuthPoll (fun _ _ => PollReply.raise "Device token poll failed: expired_token - gone")
        100 cState3 "sid").2.1
      = PollApiResult.errorEvicted "Device token poll failed: expired_token - gone" ∧
    getEntry (handleOAuthPoll (fun _ _ => PollReply.raise "Device token poll failed: expired_token - gone")
        100 cState3 "sid").1.oauthStates "sid" = none ∧
    getEntry (handleOAuthPoll (fun _ _ => PollReply.raise "Device token poll failed: expired_token - gone")
        100 cState3 "sid").1.kvOauth "sid" = none) :=
  ⟨rfl,
   (claim_C3_poll_error_paths
      (fun _ _ => PollReply.raise "Device token poll failed: expired_token - gone")
      100 cState3 "sid" cSession 1000000 (by decide) (by decide)
      (by decide) (by simp only [keysNodup]; decide)
      (by simp only [keysNodup]; decide)).2.1
     "Device token poll failed: expired_token - gone" rfl (by decide)⟩

/-- C4: on a live session, a poll more than 60s past `expiresAt` evicts the
session from memory and KV and fails as expired without calling upstream;
a poll inside the final 60s window (but not past the grace) returns the
pending-with-warning answer, makes no upstream call, and keeps the
session. -/
theorem claim_C4_poll_expiry_windows (poll : PollFn) (now : Int) (s : ServerState)
    (stateId : String) (st0 : OAuthState) (e : Int)
    (hmem : getEntry s.oauthStates stateId = some st0)
    (he : st0.expiresAt = some e) (he0 : e ≠ 0)
    (hnd1 : keysNodup s.oauthStates) (hnd2 : keysNodup s.kvOauth) :
    (now > e + 60000 →
      (handleOAuthPoll poll now s stateId).2.1 = PollApiResult.expired ∧
      (handleOAuthPoll poll now s stateId).2.2 = 0 ∧
      getEntry (handleOAuthPoll poll now s stateId).1.oauthStates stateId = none ∧
      getEntry (handleOAuthPoll poll now s stateId).1.kvOauth stateId = none) ∧
    (now ≤ e + 60000 → now > e - 60000 →
      (handleOAuthPoll poll now s stateId).2.1 = PollApiResult.pendingWarning ∧
      (handleOAuthPoll poll now s stateId).2.2 = 0 ∧
      getEntry (handleOAuthPoll poll now s stateId).1.oauthStates stateId
        = some { st0 with lastUsedAt := some now } ∧
      getEntry (handleOAuthPoll poll now s stateId).1.kvOauth stateId
        = some { st0 with lastUsedAt := some now }) := by
  have hdel1 : getEntry (delEntry (setEntry s.oauthStates stateId
      { st0 with lastUsedAt := some now }) stateId) stateId = none :=
    getEntry_delEntry_self _ _ (keysNodup_setEntry _ _ _ hnd1)
  have hdel2 : getEntry (delEntry (setEntry s.kvOauth stateId
      { st0 with lastUsedAt := some now }) stateId) stateId = none :=
    getEntry_delEntry_self _ _ (keysNodup_setEntry _ _ _ hnd2)
  have hset1 : getEntry (setEntry s.oauthStates stateId
      { st0 with lastUsedAt := some now }) stateId
      = some { st0 with lastUsedAt := some now } := by
    rw [getEntry_setEntry]; simp
  have hset2 : getEntry (setEntry s.kvOauth stateId
      { st0 with lastUsedAt := some now }) stateId
      = some { st0 with lastUsedAt := some now } := by
    rw [getEntry_setEntry]; simp
  constructor
  · intro h
    have hc1 : (truthyI st0.expiresAt
        && decide (now > st0.expiresAt.getD 0 + 60000)) = true := by
      rw [he]
      simp [truthyI, he0]
      omega
    refine ⟨?_, ?_, ?_, ?_⟩ <;>
      simp [handleOAuthPoll, hmem, hc1, evictOAuth, hdel1, hdel2]
  · intro h1 h2
    have hc1 : (truthyI st0.expiresAt
        && decide (now > st0.expiresAt.getD 0 + 60000)) = false := by
      rw [he]
      simp [truthyI]
      omega
    have hc2 : (truthyI st0.expiresAt
        && decide (now > st0.expiresAt.getD 0 - 60000)) = true := by
      rw [he]
      simp [truthyI, he0]
      omega
    refine ⟨?_, ?_, ?_, ?_⟩ <;>
      simp [handleOAuthPoll, hmem, hc1, hc2, hset1, hset2]

theorem claim_C4_poll_expiry_windows_witness :
    ((2000000 : Int) > 1000000 + 60000) ∧
    ((handleOAuthPoll cPollDenied 2000000 cState3 "sid").2.1
        = PollApiResult.expired ∧
    (handleOAuthPoll cPollDenied 2000000 cState3 "sid").2.2 = 0 ∧
    getEntry (handleOAuthPoll cPollDenied 2000000 cState3 "sid").1.oauthStates
      "sid" = none ∧
    getEntry (handleOAuthPoll cPollDenied 2000000 cState3 "sid").1.kvOauth
      "sid" = none) :=
  ⟨by decide,
   (claim_C4_poll_expiry_windows cPollDenied 2000000 cState3 "sid" cSession
      1000000 (by decide) (by decide) (by decide)
      (by simp only [keysNodup]; decide)
      (by simp only [keysNodup]; decide)).1 (by decide)⟩

theorem loadTokensFromKv_tokenStore (s : ServerState) :
    (loadTokensFromKv s).tokenStore = s.kvTokens := rfl

theorem loadTokensFromKv_kvTokens (s : ServerState) :
    (loadTokensFromKv s).kvTokens = s.kvTokens := rfl

theorem getValidToken_state (rc : RefreshFn) (now : Int) (seed : Nat → Nat)
    (pick : Nat) (s : ServerState) :
    (getValidToken rc now seed pick s).1 = loadTokensFromKv s ∨
    (getValidToken rc now seed pick s).1
      = (collectValid rc now (loadTokensFromKv s)
          (fyShuffle seed (loadTokensFromKv s).tokenStore)).1 := by
  simp only [getValidToken]
  split
  · exact Or.inl rfl
  · split
    · exact Or.inr rfl
    · exact Or.inr rfl

theorem getValidToken_result_mem (rc : RefreshFn) (now : Int) (seed : Nat → Nat)
    (pick : Nat) (s : ServerState) (p : String × TokenData)
    (h : (getValidToken rc now seed pick s).2 = some p) :
    p ∈ (collectValid rc now (loadTokensFromKv s)
        (fyShuffle seed (loadTokensFromKv s).tokenStore)).2 := by
  simp only [getValidToken] at h
  by_cases h0 : (loadTokensFromKv s).tokenStore.length = 0
  · rw [if_pos h0] at h
    exact absurd h (by simp)
  · rw [if_neg h0] at h
    by_cases hpos : 0 < (collectValid rc now (loadTokensFromKv s)
        (fyShuffle seed (loadTokensFromKv s).tokenStore)).2.length
    · rw [if_pos hpos] at h
      have hmem := getD_mem
        (collectValid rc now (loadTokensFromKv s)
          (fyShuffle seed (loadTokensFromKv s).tokenStore)).2
        (pick % (collectValid rc now (loadTokensFromKv s)
          (fyShuffle seed (loadTokensFromKv s).tokenStore)).2.length)
        dPair (Nat.mod_lt pick hpos)
      exact Option.some.inj h ▸ hmem
    · rw [if_neg hpos] at h
      exact absurd h (by simp)

/-- C5: a failed forced refresh of a token id deletes the record from
memory and from KV; a refresh failure during credential selection never
deletes anything - every record present before `getValidToken` is still
present after it - and only excludes the failing record from the
selection's valid candidate set, so the selected credential never carries
its id. -/
theorem claim_C5_deletion_policy (rc : RefreshFn) (now : Int) (s : ServerState)
    (hnd : keysNodup s.kvTokens) :
    (∀ tokenId token, getEntry s.kvTokens tokenId = some token →
      rc token.refresh_token = none →
      (handleRefreshSingleToken rc now s tokenId).2
        = RefreshSingleResult.deletedAfterFailure ∧
      getEntry (handleRefreshSingleToken rc now s tokenId).1.tokenStore tokenId = none ∧
      getEntry (handleRefreshSingleToken rc now s tokenId).1.kvTokens tokenId = none) ∧
    (∀ seed pick q, (getEntry s.kvTokens q).isSome →
      (getEntry (getValidToken rc now seed pick s).1.tokenStore q).isSome ∧
      (getEntry (getValidToken rc now seed pick s).1.kvTokens q).isSome) ∧
    (∀ seed pick q t p, getEntry s.kvTokens q = some t →
      isExpiredCheck now t = true → rc t.refresh_token = none →
      (getValidToken rc now seed pick s).2 = some p → p.1 ≠ q) := by
  refine ⟨?_, ?_, ?_⟩
  · intro tokenId token hget hrc
    have hself : getEntry (delEntry s.kvTokens tokenId) tokenId = none :=
      getEntry_delEntry_self s.kvTokens tokenId hnd
    refine ⟨?_, ?_, ?_⟩ <;>
      simp [handleRefreshSingleToken, loadTokensFromKv, hget, forceRefreshToken,
        hrc, hself]
  · intro seed pick q hq
    have h1 : (getEntry (loadTokensFromKv s).tokenStore q).isSome := hq
    have h2 : (getEntry (loadTokensFromKv s).kvTokens q).isSome := hq
    have hpres := collectValid_preserves_isSome rc now
      (fyShuffle seed (loadTokensFromKv s).tokenStore) (loadTokensFromKv s) q h1 h2
    rcases getValidToken_state rc now seed pick s with hst | hst <;> rw [hst]
    · exact ⟨h1, h2⟩
    · exact hpres
  · intro seed pick q t p hget hexp hrc hres
    have hperm := fyShuffle_perm seed s.kvTokens
    have hmem : (q, t) ∈ s.kvTokens := getEntry_some_mem _ _ _ hget
    have hmem2 : (q, t) ∈ fyShuffle seed s.kvTokens := hperm.mem_iff.mpr hmem
    have hndsh : keysNodup (fyShuffle seed s.kvTokens) :=
      ((hperm.map Prod.fst).nodup_iff).mpr hnd
    have hnotin := collectValid_excludes_failing rc now
      (fyShuffle seed s.kvTokens) (loadTokensFromKv s) q t hndsh hmem2 hexp hrc
    have hp := getValidToken_result_mem rc now seed pick s p hres
    have hkey : p.1 ∈ (collectValid rc now (loadTokensFromKv s)
        (fyShuffle seed s.kvTokens)).2.map Prod.fst :=
      List.mem_map.mpr ⟨p, hp, rfl⟩
    intro hpq
    rw [hpq] at hkey
    exact hnotin hkey

theorem claim_C5_deletion_policy_witness :
    keysNodup sPool.kvTokens ∧
    ((∀ tokenId token, getEntry sPool.kvTokens tokenId = some token →
      rcNone token.refresh_token = none →
      (handleRefreshSingleToken rcNone 1000 sPool tokenId).2
        = RefreshSingleResult.deletedAfterFailure ∧
      getEntry (handleRefreshSingleToken rcNone 1000 sPool tokenId).1.tokenStore
        tokenId = none ∧
      getEntry (handleRefreshSingleToken rcNone 1000 sPool tokenId).1.kvTokens
        tokenId = none) ∧
    (∀ seed pick q, (getEntry sPool.kvTokens q).isSome →
      (getEntry (getValidToken rcNone 1000 seed pick sPool).1.tokenStore q).isSome ∧
      (getEntry (getValidToken rcNone 1000 seed pick sPool).1.kvTokens q).isSome) ∧
    (∀ seed pick q t p, getEntry sPool.kvTokens q = some t →
      isExpiredCheck 1000 t = true → rcNone t.refresh_token = none →
      (getValidToken rcNone 1000 seed pick sPool).2 = some p → p.1 ≠ q)) :=
  ⟨by simp only [keysNodup]; decide,
   claim_C5_deletion_policy rcNone 1000 sPool (by simp only [keysNodup]; decide)⟩

/-- C8: with a pool of N valid credentials, `getValidToken` loads the
freshest KV snapshot and leaves it unmodified, the Fisher-Yates pass
produces a permutation of the candidate entries, and over the N
equally-likely values of the final random index the selection returns each
credential exactly once - the uniform-selection property. -/
theorem claim_C8_selection_uniform (rc : RefreshFn) (now : Int) (s : ServerState)
    (seed : Nat → Nat)
    (hvalid : ∀ p ∈ s.kvTokens, isExpiredCheck now p.2 = false)
    (hne : 1 ≤ s.kvTokens.length) :
    List.Perm (fyShuffle seed s.kvTokens) s.kvTokens ∧
    List.Perm ((List.range s.kvTokens.length).map
      (fun r => (getValidToken rc now seed r s).2)) (s.kvTokens.map some) ∧
    (∀ r, (getValidToken rc now seed r s).1 = loadTokensFromKv s) := by
  have hperm := fyShuffle_perm seed s.kvTokens
  have hlen : (fyShuffle seed s.kvTokens).length = s.kvTokens.length :=
    hperm.length_eq
  have hvalid2 : ∀ p ∈ fyShuffle seed s.kvTokens, isExpiredCheck now p.2 = false :=
    fun p hp => hvalid p (hperm.mem_iff.mp hp)
  have hcoll : collectValid rc now (loadTokensFromKv s) (fyShuffle seed s.kvTokens)
      = (loadTokensFromKv s, fyShuffle seed s.kvTokens) :=
    collectValid_allValid rc now (fyShuffle seed s.kvTokens) (loadTokensFromKv s)
      hvalid2
  have h0 : ¬ (s.kvTokens.length = 0) := by omega
  have hpos : 0 < (fyShuffle seed s.kvTokens).length := by omega
  have hget : ∀ r, getValidToken rc now seed r s
      = (loadTokensFromKv s,
         some ((fyShuffle seed s.kvTokens).getD
           (r % (fyShuffle seed s.kvTokens).length) dPair)) := by
    intro r
    simp only [getValidToken, loadTokensFromKv_tokenStore, if_neg h0]
    rw [hcoll]
    simp only [if_pos hpos]
  refine ⟨hperm, ?_, ?_⟩
  · have hpt : ∀ r ∈ List.range (fyShuffle seed s.kvTokens).length,
        (getValidToken rc now seed r s).2
          = some ((fyShuffle seed s.kvTokens).getD r dPair) := by
      intro r hr
      rw [hget r]
      simp only
      rw [Nat.mod_eq_of_lt (List.mem_range.mp hr)]
    rw [← hlen, List.map_congr_left hpt]
    have hcomp : (fun r => some ((fyShuffle seed s.kvTokens).getD r dPair))
        = some ∘ (fun r => (fyShuffle seed s.kvTokens).getD r dPair) := rfl
    rw [hcomp, ← List.map_map, getD_range_map]
    exact hperm.map some
  · intro r
    rw [hget r]

theorem claim_C8_selection_uniform_witness :
    (∀ p ∈ sPoolValid.kvTokens, isExpiredCheck 1000 p.2 = false) ∧
    (1 ≤ sPoolValid.kvTokens.length) ∧
    (List.Perm (fyShuffle (fun n => n) sPoolValid.kvTokens) sPoolValid.kvTokens ∧
    List.Perm ((List.range sPoolValid.kvTokens.length).map
      (fun r => (getValidToken rcNone 1000 (fun n => n) r sPoolValid).2))
      (sPoolValid.kvTokens.map some) ∧
    (∀ r, (getValidToken rcNone 1000 (fun n => n) r sPoolValid).1
      = loadTokensFromKv sPoolValid)) :=
  ⟨by decide, by decide,
   claim_C8_selection_uniform rcNone 1000 sPoolValid (fun n => n)
     (by decide) (by decide)⟩

theorem claim_C10_no_expiry_never_expired_witness :
    tokNoExp.expires_at = none ∧
    (isExpiredCheck 5000000 tokNoExp = false ∧
    validateAndRefreshToken rcNone 5000000 sPoolValid "rtokenNo" tokNoExp
      = (sPoolValid, some tokNoExp, 0) ∧
    (∀ s2 entries, ("rtokenNo", tokNoExp) ∈ entries →
      (⟨"rtokenNo", tokNoExp.expires_at, false, tokNoExp.uploaded_at, false, false⟩
          : TokenStatusEntry)
        ∈ (tokenStatusLoop rcNone 5000000 s2 entries).2) ∧
    (∀ s2 entries, ("rtokenNo", tokNoExp) ∈ entries →
      ("rtokenNo", tokNoExp) ∈ (collectValid rcNone 5000000 s2 entries).2)) :=
  ⟨by decide,
   claim_C10_no_expiry_never_expired rcNone 5000000 sPoolValid "rtokenNo" tokNoExp
     (by decide)⟩

end Qwen
